import Mathlib

/-!
Verification of the `chalice-unit-test` example application (`src/app.py`,
`src/app_test.py`).

The repository registers three route handlers on a Chalice application and
tests them through Chalice's in-process `LocalGateway`.  The route handlers
(`index`, `hello_name`, `create_user`) are translated from `src/app.py`.
The request dispatcher, route matching and JSON body handling live in the
external Chalice framework, not in this repository; they are modelled from
the specification (sections 2, 3, 4, 6 and 7): a route table of
(methods, path pattern, handler) entries, segment-wise pattern matching
with `\x7bname\x7d` placeholders, 404 for no path match, 405 for a method
mismatch, JSON-encoded 200 responses, and a surfaced request-scoped error
for a malformed JSON body.

JSON values are modelled with integer numbers (the spec's bodies use only
strings, arrays, objects and null; floating point is outside the model).
-/

namespace ChaliceUnitTest

/-- Modelled from the spec: the JSON values exchanged in request and
response bodies ("Body encoding: UTF-8 JSON").  The Chalice framework's
JSON support is not part of this repository, so the value universe is
modelled here: null, booleans, (integer) numbers, strings, arrays and
objects. -/
inductive Json where
  | null
  | bool (b : Bool)
  | num (n : Int)
  | str (s : String)
  | arr (xs : List Json)
  | obj (kvs : List (String × Json))

/-- The left curly brace character, used by path-pattern placeholders and
JSON object syntax. -/
def lbrace : Char := Char.ofNat 123

/-- The right curly brace character. -/
def rbrace : Char := Char.ofNat 125

/-- Lower-case hexadecimal digit for `n < 16` (also the decimal digit for
`n < 10`). -/
def hexChar (n : Nat) : Char :=
  if n < 10 then Char.ofNat (48 + n) else Char.ofNat (87 + n)

/-- JSON string escaping for a single character: `"` and `\` get a
backslash escape, control characters a `\u00XX` escape, everything else is
emitted verbatim. -/
def escapeChar (c : Char) : List Char :=
  if c = '"' then ['\\', '"']
  else if c = '\\' then ['\\', '\\']
  else if c.toNat < 32 then
    ['\\', 'u', '0', '0', hexChar (c.toNat / 16), hexChar (c.toNat % 16)]
  else [c]

/-- Escape every character of a string body. -/
def escAll (cs : List Char) : List Char :=
  cs.foldr (fun c acc => escapeChar c ++ acc) []

/-- Render a JSON string literal, quotes included. -/
def renderStr (s : String) : List Char :=
  '"' :: escAll s.data ++ ['"']

/-- Decimal digits of `n`, most significant first; `fuel` bounds the
recursion and any `fuel > n` is enough. -/
def renderNat (fuel : Nat) (n : Nat) : List Char :=
  match fuel with
  | 0 => []
  | fuel + 1 =>
    if n < 10 then [hexChar n] else renderNat fuel (n / 10) ++ [hexChar (n % 10)]

mutual
/-- Modelled from the spec: JSON serialization of a handler's return value
into the response body ("The handler's return value (a plain
mapping/structure) is JSON-encoded as the response body"); the encoder
itself belongs to the Chalice framework, which is not in this repository. -/
def renderChars : Json → List Char
  | .null => "null".data
  | .bool true => "true".data
  | .bool false => "false".data
  | .num n =>
    if n < 0 then '-' :: renderNat (n.natAbs + 1) n.natAbs
    else renderNat (n.toNat + 1) n.toNat
  | .str s => renderStr s
  | .arr xs => '[' :: renderArr xs ++ [']']
  | .obj kvs => lbrace :: renderObj kvs ++ [rbrace]

/-- Comma-separated rendering of array elements. -/
def renderArr : List Json → List Char
  | [] => []
  | [x] => renderChars x
  | x :: y :: xs => renderChars x ++ ',' :: renderArr (y :: xs)

/-- Comma-separated rendering of object members. -/
def renderObj : List (String × Json) → List Char
  | [] => []
  | [(k, v)] => renderStr k ++ ':' :: renderChars v
  | (k, v) :: p :: xs => renderStr k ++ ':' :: renderChars v ++ ',' :: renderObj (p :: xs)
end

/-- Whitespace characters JSON allows between tokens. -/
def isWsChar (c : Char) : Bool :=
  c = ' ' || c = '\t' || c = '\n' || c = Char.ofNat 13

/-- Drop leading JSON whitespace. -/
def skipWs : List Char → List Char
  | [] => []
  | c :: cs => if isWsChar c then skipWs cs else c :: cs

/-- Decimal digit test. -/
def isDigitChar (c : Char) : Bool :=
  48 ≤ c.toNat && c.toNat ≤ 57

/-- Value of a decimal digit character. -/
def digitVal (c : Char) : Nat := c.toNat - 48

/-- Hexadecimal digit test (both cases). -/
def isHexChar (c : Char) : Bool :=
  isDigitChar c || (97 ≤ c.toNat && c.toNat ≤ 102) || (65 ≤ c.toNat && c.toNat ≤ 70)

/-- Value of a hexadecimal digit character. -/
def hexVal (c : Char) : Nat :=
  if isDigitChar c then c.toNat - 48
  else if 97 ≤ c.toNat then c.toNat - 87
  else c.toNat - 55

/-- Split the input into its maximal leading run of decimal digits and the
remainder. -/
def parseDigitSpan : List Char → List Char × List Char
  | [] => ([], [])
  | c :: cs =>
    if isDigitChar c then
      match parseDigitSpan cs with
      | (ds, r) => (c :: ds, r)
    else ([], c :: cs)

/-- Fold a digit run into the number it denotes, extending `acc`. -/
def digitsToNatAcc (acc : Nat) (ds : List Char) : Nat :=
  ds.foldl (fun a c => a * 10 + digitVal c) acc

/-- Resolve a single-character JSON escape. -/
def unescapeChar (c : Char) : Option Char :=
  if c = '"' then some '"'
  else if c = '\\' then some '\\'
  else if c = '/' then some '/'
  else if c = 'b' then some (Char.ofNat 8)
  else if c = 'f' then some (Char.ofNat 12)
  else if c = 'n' then some '\n'
  else if c = 'r' then some (Char.ofNat 13)
  else if c = 't' then some '\t'
  else none

/-- Parse the body of a JSON string literal after the opening quote,
returning the decoded characters and the input after the closing quote. -/
def parseStrChars : List Char → Option (List Char × List Char)
  | [] => none
  | c :: cs =>
    if c = '"' then some ([], cs)
    else if c = '\\' then
      match cs with
      | [] => none
      | e :: cs' =>
        if e = 'u' then
          match cs' with
          | h1 :: h2 :: h3 :: h4 :: cs'' =>
            if isHexChar h1 && isHexChar h2 && isHexChar h3 && isHexChar h4 then
              match parseStrChars cs'' with
              | some (s, r) =>
                some (Char.ofNat (((hexVal h1 * 16 + hexVal h2) * 16 + hexVal h3) * 16 + hexVal h4) :: s, r)
              | none => none
            else none
          | _ => none
        else
          match unescapeChar e with
          | some ec =>
            match parseStrChars cs' with
            | some (s, r) => some (ec :: s, r)
            | none => none
          | none => none
    else
      match parseStrChars cs with
      | some (s, r) => some (c :: s, r)
      | none => none

mutual
/-- Modelled from the spec: JSON parsing of request bodies ("a parsed body
(JSON-decoded when the content type indicates JSON)"); the decoder belongs
to the Chalice framework / Python `json` module, which is not in this
repository.  `fuel` bounds nesting; any `fuel` exceeding the input length
is enough. -/
def parseVal : Nat → List Char → Option (Json × List Char)
  | 0, _ => none
  | f + 1, cs =>
    match skipWs cs with
    | [] => none
    | c :: cs' =>
      if c = '"' then
        match parseStrChars cs' with
        | some (s, r) => some (Json.str (String.mk s), r)
        | none => none
      else if c = '[' then
        match skipWs cs' with
        | c2 :: r2 =>
          if c2 = ']' then some (Json.arr [], r2)
          else
            match parseArrItems f cs' with
            | some (xs, r) => some (Json.arr xs, r)
            | none => none
        | [] => none
      else if c = lbrace then
        match skipWs cs' with
        | c2 :: r2 =>
          if c2 = rbrace then some (Json.obj [], r2)
          else
            match parseObjItems f cs' with
            | some (kvs, r) => some (Json.obj kvs, r)
            | none => none
        | [] => none
      else if c = '-' then
        match cs' with
        | d :: _ =>
          if isDigitChar d then
            match parseDigitSpan cs' with
            | (ds, r) => some (Json.num (-(Int.ofNat (digitsToNatAcc 0 ds))), r)
          else none
        | [] => none
      else if isDigitChar c then
        match parseDigitSpan (c :: cs') with
        | (ds, r) => some (Json.num (Int.ofNat (digitsToNatAcc 0 ds)), r)
      else if c = 'n' then
        match cs' with
        | c1 :: c2 :: c3 :: r =>
          if c1 = 'u' ∧ c2 = 'l' ∧ c3 = 'l' then some (Json.null, r) else none
        | _ => none
      else if c = 't' then
        match cs' with
        | c1 :: c2 :: c3 :: r =>
          if c1 = 'r' ∧ c2 = 'u' ∧ c3 = 'e' then some (Json.bool true, r) else none
        | _ => none
      else if c = 'f' then
        match cs' with
        | c1 :: c2 :: c3 :: c4 :: r =>
          if c1 = 'a' ∧ c2 = 'l' ∧ c3 = 's' ∧ c4 = 'e' then some (Json.bool false, r) else none
        | _ => none
      else none

/-- Parse one or more comma-separated array elements followed by `]`. -/
def parseArrItems : Nat → List Char → Option (List Json × List Char)
  | 0, _ => none
  | f + 1, cs =>
    match parseVal f cs with
    | some (v, r) =>
      match skipWs r with
      | c :: r' =>
        if c = ',' then
          match parseArrItems f r' with
          | some (xs, r'') => some (v :: xs, r'')
          | none => none
        else if c = ']' then some ([v], r')
        else none
      | [] => none
    | none => none

/-- Parse one or more comma-separated object members followed by the
closing brace. -/
def parseObjItems : Nat → List Char → Option (List (String × Json) × List Char)
  | 0, _ => none
  | f + 1, cs =>
    match skipWs cs with
    | c :: cs' =>
      if c = '"' then
        match parseStrChars cs' with
        | some (k, r) =>
          match skipWs r with
          | c1 :: r1 =>
            if c1 = ':' then
              match parseVal f r1 with
              | some (v, r2) =>
                match skipWs r2 with
                | c3 :: r3 =>
                  if c3 = ',' then
                    match parseObjItems f r3 with
                    | some (kvs, r4) => some ((String.mk k, v) :: kvs, r4)
                    | none => none
                  else if c3 = rbrace then some ([(String.mk k, v)], r3)
                  else none
                | [] => none
              | none => none
            else none
          | [] => none
        | none => none
      else none
    | [] => none
end

/-- Modelled from the spec: decode a request or response body as JSON
(Python `json.loads` in the tests; the decoder is not in this repository).
Returns `none` on malformed input. -/
def parseJson (s : String) : Option Json :=
  match parseVal (s.data.length + 1) s.data with
  | some (v, rest) => if skipWs rest = [] then some v else none
  | none => none

/-- Render a JSON value to a response-body string. -/
def renderJson (v : Json) : String :=
  String.mk (renderChars v)

/-- Does the input start with a decimal digit?  Used to state when greedy
number parsing stops exactly at a boundary. -/
def digitStart : List Char → Bool
  | [] => false
  | c :: _ => isDigitChar c

/-- Modelled from the spec: a request as seen by the dispatcher
("`handle(method, path, headers, body)` → Response"; the tests call
`gateway.handle_request(method=…, path=…, headers=…, body=…)`). -/
structure Request where
  method : String
  path : String
  headers : List (String × String)
  body : String

/-- Modelled from the spec: the response envelope ("a response envelope
containing a status code, headers, and a body string"). -/
structure Response where
  statusCode : Nat
  headers : List (String × String)
  body : String
deriving DecidableEq

/-- Modelled from the spec: a Route Table entry ("an ordered mapping from
(HTTP method, path pattern) to a handler function"); `methods` is a list
because `src/app.py` registers `/users` with `methods=['POST']`.  A handler
receives the placeholder bindings and the request and either returns a
JSON value (serialized with status 200) or signals an error status. -/
structure RouteEntry where
  methods : List String
  uriPattern : String
  viewFunction : List (String × String) → Request → Except Nat Json

/-- Modelled from the spec: Chalice's default method list when a route
declares none (`@app.route('/')` accepts GET). -/
def defaultMethods : List String := ["GET"]

/-- Split a character list at `/` separators. -/
def splitOnChar (sep : Char) : List Char → List (List Char)
  | [] => [[]]
  | c :: rest =>
    if c = sep then [] :: splitOnChar sep rest
    else
      match splitOnChar sep rest with
      | [] => [[c]]
      | g :: gs => (c :: g) :: gs

/-- Path segments of a path or pattern string. -/
def segsOfChars (s : String) : List (List Char) :=
  splitOnChar '/' s.data

/-- Modelled from the spec: recognise a `\x7bname\x7d` placeholder segment
and extract its name ("path patterns may contain named placeholders"). -/
def placeholderName (cs : List Char) : Option (List Char) :=
  if 2 ≤ cs.length ∧ cs.head? = some lbrace ∧ cs.getLast? = some rbrace then
    some ((cs.drop 1).dropLast)
  else none

/-- Modelled from the spec: segment-wise matching of a pattern against a
concrete path ("exact literal segments must match character-for-character;
a `\x7bname\x7d` segment matches any single non-empty path segment and
binds it to `name`").  Returns the placeholder bindings on success. -/
def matchSegs : List (List Char) → List (List Char) → Option (List (String × String))
  | [], [] => some []
  | p :: ps, s :: ss =>
    match placeholderName p with
    | some nm =>
      if s ≠ [] then
        match matchSegs ps ss with
        | some bs => some ((String.mk nm, String.mk s) :: bs)
        | none => none
      else none
    | none => if p = s then matchSegs ps ss else none
  | _, _ => none

/-- From `src/app.py`: `index()` returns `{'hello': 'world'}` (the handler
takes no path parameters and ignores the request). -/
def index (_ : List (String × String)) (_ : Request) : Except Nat Json :=
  .ok (Json.obj [("hello", Json.str "world")])

/-- From `src/app.py`: `hello_name(name)` returns `{'hello': name}` where
`name` is the bound path parameter. -/
def hello_name (params : List (String × String)) (_ : Request) : Except Nat Json :=
  .ok (Json.obj [("hello", Json.str ((params.lookup "name").getD ""))])

/-- Check that `pre` is a prefix of `cs`, character for character. -/
def charsStartWith : List Char → List Char → Bool
  | [], _ => true
  | _ :: _, [] => false
  | p :: ps, c :: cs => p = c && charsStartWith ps cs

/-- Modelled from the spec: does the request's `Content-Type` header
indicate JSON ("a parsed body (JSON-decoded when the content type
indicates JSON)", "header `Content-Type: application/json` for body
parsing on POST")? -/
def hasJsonContentType (headers : List (String × String)) : Bool :=
  charsStartWith "application/json".data ((headers.lookup "Content-Type").getD "").data

/-- Modelled from the spec: `app.current_request.json_body` — the request
body JSON-decoded when the content type indicates JSON (`null` otherwise);
a malformed JSON body is a surfaced, request-scoped error (status 400). -/
def json_body (req : Request) : Except Nat Json :=
  if hasJsonContentType req.headers then
    match parseJson req.body with
    | some v => .ok v
    | none => .error 400
  else .ok Json.null

/-- From `src/app.py`: `create_user()` echoes the request's JSON body back
under a `'user'` key: `{'user': user_as_json}`. -/
def create_user (_ : List (String × String)) (req : Request) : Except Nat Json :=
  match json_body req with
  | .ok u => .ok (Json.obj [("user", u)])
  | .error e => .error e

/-- From `src/app.py`: the three registered routes, in registration order:
`@app.route('/')` → `index`, `@app.route('/hello/\x7bname\x7d')` →
`hello_name`, `@app.route('/users', methods=['POST'])` → `create_user`. -/
def app_routes : List RouteEntry :=
  [⟨defaultMethods, "/", index⟩,
   ⟨defaultMethods, "/hello/\x7bname\x7d", hello_name⟩,
   ⟨["POST"], "/users", create_user⟩]

/-- Routes whose pattern matches the path, paired with their placeholder
bindings, in registration order. -/
def matchingRoutes (path : String) : List (RouteEntry × List (String × String)) :=
  app_routes.filterMap fun r =>
    match matchSegs (segsOfChars r.uriPattern) (segsOfChars path) with
    | some bs => some (r, bs)
    | none => none

/-- Modelled from the spec: the Request Dispatcher
(`handle(method, path, headers, body)` → Response): no pattern matches the
path → 404; a pattern matches but not the method → 405; otherwise the
first matching route's handler runs and its JSON result is the 200
response body (an error signalled by the handler—the malformed-JSON
case—becomes that error's status code). -/
def handle (req : Request) : Response :=
  match (matchingRoutes req.path).find? (fun rb => rb.1.methods.contains req.method) with
  | some (r, binds) =>
    match r.viewFunction binds req with
    | .ok v =>
      { statusCode := 200, headers := [("Content-Type", "application/json")],
        body := renderJson v }
    | .error code =>
      { statusCode := code, headers := [("Content-Type", "application/json")], body := "" }
  | none =>
    if (matchingRoutes req.path).isEmpty then
      { statusCode := 404, headers := [("Content-Type", "application/json")], body := "" }
    else
      { statusCode := 405, headers := [("Content-Type", "application/json")], body := "" }

/-- Does some registered pattern match this path? -/
def pathIsRegistered (path : String) : Bool :=
  !(matchingRoutes path).isEmpty

/-- Is some route registered for this method on a pattern matching this
path? -/
def methodIsRegistered (method path : String) : Bool :=
  (matchingRoutes path).any fun rb => rb.1.methods.contains method

/-- Modelled from the spec: request-at-a-time execution of a batch of
requests ("Single-threaded, synchronous, request-at-a-time execution …
each `handle` call is a pure, independent computation over its inputs"). -/
def processAll (reqs : List Request) : List Response :=
  reqs.map handle

theorem mk_data (s : String) : String.mk s.data = s := by
  cases s
  rfl

theorem isDigitChar_hexChar_lt10 : ∀ n < 10, isDigitChar (hexChar n) = true := by
  decide

theorem digitVal_hexChar : ∀ n < 10, digitVal (hexChar n) = n := by
  decide

theorem isHexChar_hexChar : ∀ n < 16, isHexChar (hexChar n) = true := by
  decide

theorem hexVal_hexChar : ∀ n < 16, hexVal (hexChar n) = n := by
  decide

theorem ne_of_digit_of_not_digit {c x : Char} (h : isDigitChar c = true)
    (hx : isDigitChar x = false) : c ≠ x := by
  intro e
  rw [e, hx] at h
  exact Bool.false_ne_true h

theorem not_ws_of_digit {c : Char} (h : isDigitChar c = true) : isWsChar c = false := by
  simp only [isDigitChar, Bool.and_eq_true, decide_eq_true_eq] at h
  simp only [isWsChar, Bool.or_eq_false_iff, decide_eq_false_iff_not]
  refine ⟨⟨⟨fun e => ?_, fun e => ?_⟩, fun e => ?_⟩, fun e => ?_⟩ <;>
    (rw [e] at h; revert h; decide)

theorem skipWs_cons (c : Char) (cs : List Char) (h : isWsChar c = false) :
    skipWs (c :: cs) = c :: cs := by
  simp [skipWs, h]

theorem renderNat_cons : ∀ f n, 0 < f → ∃ d ds, renderNat f n = d :: ds := by
  intro f n hf
  match f with
  | f + 1 =>
    rw [renderNat]
    by_cases h : n < 10
    · exact ⟨hexChar n, [], by simp [h]⟩
    · simp only [if_neg h]
      match h2 : renderNat f (n / 10) with
      | [] => exact ⟨hexChar (n % 10), [], rfl⟩
      | d :: ds => exact ⟨d, ds ++ [hexChar (n % 10)], rfl⟩

theorem renderNat_digits : ∀ f n, ∀ c ∈ renderNat f n, isDigitChar c = true := by
  intro f
  induction f with
  | zero => intro n c hc; simp [renderNat] at hc
  | succ f ih =>
    intro n c hc
    rw [renderNat] at hc
    by_cases h : n < 10
    · rw [if_pos h] at hc
      simp only [List.mem_singleton] at hc
      exact hc ▸ isDigitChar_hexChar_lt10 n h
    · rw [if_neg h] at hc
      rcases List.mem_append.1 hc with h1 | h1
      · exact ih (n / 10) c h1
      · simp only [List.mem_singleton] at h1
        exact h1 ▸ isDigitChar_hexChar_lt10 (n % 10) (Nat.mod_lt _ (by omega))

theorem parseDigitSpan_append (ds rest : List Char)
    (hds : ∀ c ∈ ds, isDigitChar c = true) (hrest : digitStart rest = false) :
    parseDigitSpan (ds ++ rest) = (ds, rest) := by
  induction ds with
  | nil =>
    cases rest with
    | nil => rfl
    | cons c cs =>
      simp only [digitStart] at hrest
      simp [parseDigitSpan, hrest]
  | cons c cs ih =>
    have hc : isDigitChar c = true := hds c (List.mem_cons_self c cs)
    simp only [List.cons_append, parseDigitSpan, hc, if_pos, List.append_eq,
      ih (fun x hx => hds x (List.mem_cons_of_mem c hx))]

theorem digitsToNatAcc_renderNat : ∀ f n acc, n < f →
    digitsToNatAcc acc (renderNat f n) = acc * 10 ^ (renderNat f n).length + n := by
  intro f
  induction f with
  | zero => omega
  | succ f ih =>
    intro n acc hn
    rw [renderNat]
    by_cases h : n < 10
    · rw [if_pos h]
      simp only [digitsToNatAcc, List.foldl_cons, List.foldl_nil, List.length_singleton,
        pow_one]
      rw [digitVal_hexChar n h]
    · rw [if_neg h]
      have hdiv : n / 10 < f := by
        have h1 : n / 10 < n := Nat.div_lt_self (by omega) (by omega)
        omega
      simp only [digitsToNatAcc, List.foldl_append, List.foldl_cons, List.foldl_nil,
        List.length_append, List.length_singleton]
      have hmod : digitVal (hexChar (n % 10)) = n % 10 :=
        digitVal_hexChar (n % 10) (Nat.mod_lt _ (by omega))
      rw [hmod]
      have := ih (n / 10) acc hdiv
      simp only [digitsToNatAcc] at this
      rw [this, pow_succ, ← mul_assoc]
      generalize acc * 10 ^ (renderNat f (n / 10)).length = A
      omega

theorem digitsToNat_renderNat (n : Nat) : digitsToNatAcc 0 (renderNat (n + 1) n) = n := by
  rw [digitsToNatAcc_renderNat (n + 1) n 0 (by omega)]
  simp

theorem escAll_cons (c : Char) (cs : List Char) :
    escAll (c :: cs) = escapeChar c ++ escAll cs := rfl

theorem parseStrChars_escAll : ∀ (cs rest : List Char),
    parseStrChars (escAll cs ++ '"' :: rest) = some (cs, rest) := by
  intro cs
  induction cs with
  | nil =>
    intro rest
    rw [show escAll [] ++ '"' :: rest = '"' :: rest from rfl, parseStrChars.eq_def]
    rfl
  | cons c cs ih =>
    intro rest
    rw [escAll_cons, List.append_assoc]
    by_cases hq : c = '"'
    · subst hq
      rw [show escapeChar '"' = ['\\', '"'] by simp [escapeChar]]
      simp only [List.cons_append, List.nil_append]
      rw [parseStrChars.eq_def]
      simp [unescapeChar, ih rest]
    · by_cases hb : c = '\\'
      · subst hb
        rw [show escapeChar '\\' = ['\\', '\\'] by simp [escapeChar]]
        simp only [List.cons_append, List.nil_append]
        rw [parseStrChars.eq_def]
        simp [unescapeChar, ih rest]
      · by_cases hc : c.toNat < 32
        · rw [show escapeChar c =
              ['\\', 'u', '0', '0', hexChar (c.toNat / 16), hexChar (c.toNat % 16)] by
            simp [escapeChar, hq, hb, hc]]
          have h0 : isHexChar '0' = true := by decide
          have hh1 : isHexChar (hexChar (c.toNat / 16)) = true :=
            isHexChar_hexChar _ (by omega)
          have hh2 : isHexChar (hexChar (c.toNat % 16)) = true :=
            isHexChar_hexChar _ (by omega)
          have harg : ((hexVal '0' * 16 + hexVal '0') * 16 + hexVal (hexChar (c.toNat / 16))) * 16
              + hexVal (hexChar (c.toNat % 16)) = c.toNat := by
            rw [hexVal_hexChar _ (by omega), hexVal_hexChar _ (by omega),
              show hexVal '0' = 0 by decide]
            omega
          simp only [List.cons_append, List.nil_append]
          rw [parseStrChars.eq_def]
          simp [h0, hh1, hh2, ih rest]
          rw [harg, Char.ofNat_toNat]
        · rw [show escapeChar c = [c] by simp [escapeChar, hq, hb, hc]]
          rw [List.singleton_append, parseStrChars.eq_def]
          simp [hq, hb, ih rest]

theorem renderChars_length_pos : ∀ v : Json, 1 ≤ (renderChars v).length := by
  intro v
  cases v with
  | null => simp [renderChars]
  | bool b => cases b <;> simp [renderChars]
  | num n =>
    rw [renderChars]
    by_cases h : n < 0
    · simp [h]
    · rw [if_neg h]
      obtain ⟨d, ds, hd⟩ := renderNat_cons (n.toNat + 1) n.toNat (by omega)
      simp [hd]
  | str s => simp [renderChars, renderStr]
  | arr xs => simp [renderChars]
  | obj kvs => simp [renderChars]

theorem renderChars_head : ∀ v : Json, ∃ c t, renderChars v = c :: t ∧
    isWsChar c = false ∧ c ≠ ']' ∧ c ≠ rbrace ∧ c ≠ ',' := by
  intro v
  cases v with
  | null => exact ⟨'n', _, rfl, by decide, by decide, by decide, by decide⟩
  | bool b =>
    cases b
    · exact ⟨'f', _, rfl, by decide, by decide, by decide, by decide⟩
    · exact ⟨'t', _, rfl, by decide, by decide, by decide, by decide⟩
  | num n =>
    rw [renderChars]
    by_cases h : n < 0
    · rw [if_pos h]
      exact ⟨'-', _, rfl, by decide, by decide, by decide, by decide⟩
    · rw [if_neg h]
      obtain ⟨d, ds, hd⟩ := renderNat_cons (n.toNat + 1) n.toNat (by omega)
      have hdig : isDigitChar d = true :=
        renderNat_digits _ _ d (by rw [hd]; exact List.mem_cons_self _ _)
      exact ⟨d, ds, hd, not_ws_of_digit hdig,
        ne_of_digit_of_not_digit hdig (by decide),
        ne_of_digit_of_not_digit hdig (by decide),
        ne_of_digit_of_not_digit hdig (by decide)⟩
  | str s => exact ⟨'"', _, rfl, by decide, by decide, by decide, by decide⟩
  | arr xs => exact ⟨'[', _, rfl, by decide, by decide, by decide, by decide⟩
  | obj kvs => exact ⟨lbrace, _, rfl, by decide, by decide, by decide, by decide⟩

theorem parseVal_succ_quote (f : Nat) (X : List Char) :
    parseVal (f + 1) ('"' :: X) =
      match parseStrChars X with
      | some (s, r) => some (Json.str (String.mk s), r)
      | none => none := rfl

theorem parseVal_succ_arr (f : Nat) (X : List Char) :
    parseVal (f + 1) ('[' :: X) =
      match skipWs X with
      | c2 :: r2 =>
        if c2 = ']' then some (Json.arr [], r2)
        else
          match parseArrItems f X with
          | some (xs, r) => some (Json.arr xs, r)
          | none => none
      | [] => none := rfl

theorem parseVal_succ_obj (f : Nat) (X : List Char) :
    parseVal (f + 1) (lbrace :: X) =
      match skipWs X with
      | c2 :: r2 =>
        if c2 = rbrace then some (Json.obj [], r2)
        else
          match parseObjItems f X with
          | some (kvs, r) => some (Json.obj kvs, r)
          | none => none
      | [] => none := rfl

theorem parseVal_succ_digit (f : Nat) (d : Char) (X : List Char)
    (hd : isDigitChar d = true) :
    parseVal (f + 1) (d :: X) =
      match parseDigitSpan (d :: X) with
      | (ds, r) => some (Json.num (Int.ofNat (digitsToNatAcc 0 ds)), r) := by
  have h1 : d ≠ '"' := ne_of_digit_of_not_digit hd (by decide)
  have h2 : d ≠ '[' := ne_of_digit_of_not_digit hd (by decide)
  have h3 : d ≠ lbrace := ne_of_digit_of_not_digit hd (by decide)
  have h4 : d ≠ '-' := ne_of_digit_of_not_digit hd (by decide)
  rw [parseVal, skipWs_cons d X (not_ws_of_digit hd)]
  simp [h1, h2, h3, h4, hd]

theorem parseVal_succ_minus (f : Nat) (d : Char) (X : List Char)
    (hd : isDigitChar d = true) :
    parseVal (f + 1) ('-' :: d :: X) =
      match parseDigitSpan (d :: X) with
      | (ds, r) => some (Json.num (-(Int.ofNat (digitsToNatAcc 0 ds))), r) := by
  rw [parseVal, skipWs_cons '-' (d :: X) (by decide)]
  simp [hd, show ('-' : Char) ≠ lbrace by decide]

theorem parseArrItems_succ (f : Nat) (cs : List Char) :
    parseArrItems (f + 1) cs =
      match parseVal f cs with
      | some (v, r) =>
        (match skipWs r with
          | c :: r' =>
            if c = ',' then
              match parseArrItems f r' with
              | some (xs, r'') => some (v :: xs, r'')
              | none => none
            else if c = ']' then some ([v], r')
            else none
          | [] => none)
      | none => none := rfl

theorem parseObjItems_succ_quote (f : Nat) (X : List Char) :
    parseObjItems (f + 1) ('"' :: X) =
      match parseStrChars X with
      | some (k, r) =>
        (match skipWs r with
          | c1 :: r1 =>
            if c1 = ':' then
              match parseVal f r1 with
              | some (v, r2) =>
                (match skipWs r2 with
                  | c3 :: r3 =>
                    if c3 = ',' then
                      match parseObjItems f r3 with
                      | some (kvs, r4) => some ((String.mk k, v) :: kvs, r4)
                      | none => none
                    else if c3 = rbrace then some ([(String.mk k, v)], r3)
                    else none
                  | [] => none)
              | none => none
            else none
          | [] => none)
      | none => none := rfl

theorem parseObjItems_step (f : Nat) (kd : List Char) (Y : List Char) :
    parseObjItems (f + 1) ('"' :: (escAll kd ++ '"' :: (':' :: Y))) =
      match parseVal f Y with
      | some (v, r2) =>
        (match skipWs r2 with
          | c3 :: r3 =>
            if c3 = ',' then
              match parseObjItems f r3 with
              | some (kvs, r4) => some ((String.mk kd, v) :: kvs, r4)
              | none => none
            else if c3 = rbrace then some ([(String.mk kd, v)], r3)
            else none
          | [] => none)
      | none => none := by
  rw [parseObjItems_succ_quote, parseStrChars_escAll]
  rfl

theorem parse_render_aux : ∀ f : Nat,
    (∀ v rest, (renderChars v).length < f → digitStart rest = false →
      parseVal f (renderChars v ++ rest) = some (v, rest)) ∧
    (∀ x xs rest, (renderArr (x :: xs)).length + 1 < f →
      parseArrItems f (renderArr (x :: xs) ++ ']' :: rest) = some (x :: xs, rest)) ∧
    (∀ kv kvs rest, (renderObj (kv :: kvs)).length + 1 < f →
      parseObjItems f (renderObj (kv :: kvs) ++ rbrace :: rest) = some (kv :: kvs, rest)) := by
  intro f
  induction f with
  | zero =>
    exact ⟨fun v rest h _ => absurd h (Nat.not_lt_zero _),
      fun x xs rest h => absurd h (Nat.not_lt_zero _),
      fun kv kvs rest h => absurd h (Nat.not_lt_zero _)⟩
  | succ f ih =>
    obtain ⟨ihV, ihA, ihO⟩ := ih
    refine ⟨?_, ?_, ?_⟩
    · intro v rest hlen hrest
      cases v with
      | null => rfl
      | bool b => cases b <;> rfl
      | str s =>
        rw [show renderChars (.str s) ++ rest = '"' :: (escAll s.data ++ '"' :: rest) by
          simp [renderChars, renderStr]]
        rw [parseVal_succ_quote, parseStrChars_escAll]
      | num n =>
        by_cases hn : n < 0
        · rw [show renderChars (.num n) ++ rest =
              '-' :: (renderNat (n.natAbs + 1) n.natAbs ++ rest) by simp [renderChars, hn]]
          obtain ⟨d, ds, hd⟩ := renderNat_cons (n.natAbs + 1) n.natAbs (by omega)
          have hdig : isDigitChar d = true :=
            renderNat_digits _ _ d (by rw [hd]; exact List.mem_cons_self _ _)
          rw [hd, List.cons_append, parseVal_succ_minus f d (ds ++ rest) hdig]
          rw [← List.cons_append, ← hd,
            parseDigitSpan_append _ rest (renderNat_digits _ _) hrest]
          have hval : -(Int.ofNat n.natAbs) = n := by
            rw [show (Int.ofNat n.natAbs : Int) = |n| from (Int.abs_eq_natAbs n).symm,
              abs_of_nonpos (by omega : n ≤ 0)]
            exact neg_neg n
          simp only [digitsToNat_renderNat]
          rw [hval]
        · rw [show renderChars (.num n) ++ rest =
              renderNat (n.toNat + 1) n.toNat ++ rest by simp [renderChars, hn]]
          obtain ⟨d, ds, hd⟩ := renderNat_cons (n.toNat + 1) n.toNat (by omega)
          have hdig : isDigitChar d = true :=
            renderNat_digits _ _ d (by rw [hd]; exact List.mem_cons_self _ _)
          rw [hd, List.cons_append, parseVal_succ_digit f d (ds ++ rest) hdig]
          rw [← List.cons_append, ← hd,
            parseDigitSpan_append _ rest (renderNat_digits _ _) hrest]
          have hval : Int.ofNat n.toNat = n := Int.toNat_of_nonneg (by omega)
          simp only [digitsToNat_renderNat]
          rw [hval]
      | arr xs =>
        cases xs with
        | nil => rfl
        | cons x xs =>
          rw [show renderChars (.arr (x :: xs)) ++ rest =
              '[' :: (renderArr (x :: xs) ++ ']' :: rest) by simp [renderChars]]
          rw [parseVal_succ_arr]
          obtain ⟨c, t, hct, hws, hbr, _, _⟩ := renderChars_head x
          obtain ⟨t2, ht2⟩ : ∃ t2, renderArr (x :: xs) = c :: t2 := by
            cases xs with
            | nil => exact ⟨t, by simp [renderArr, hct]⟩
            | cons y ys => exact ⟨t ++ ',' :: renderArr (y :: ys), by simp [renderArr, hct]⟩
          have hLen : (renderArr (x :: xs)).length + 1 < f := by
            have h2 : (renderChars (Json.arr (x :: xs))).length =
                (renderArr (x :: xs)).length + 2 := by
              simp [renderChars]
            omega
          have hA := ihA x xs rest hLen
          rw [ht2, List.cons_append] at hA ⊢
          simp [skipWs_cons c (t2 ++ ']' :: rest) hws, hbr, hA]
      | obj kvs =>
        cases kvs with
        | nil => rfl
        | cons kv kvs =>
          obtain ⟨k, v⟩ := kv
          rw [show renderChars (.obj ((k, v) :: kvs)) ++ rest =
              lbrace :: (renderObj ((k, v) :: kvs) ++ rbrace :: rest) by simp [renderChars]]
          rw [parseVal_succ_obj]
          obtain ⟨t2, ht2⟩ : ∃ t2, renderObj ((k, v) :: kvs) = '"' :: t2 := by
            cases kvs with
            | nil =>
              exact ⟨escAll k.data ++ '"' :: ':' :: renderChars v, by simp [renderObj, renderStr]⟩
            | cons p ps =>
              exact ⟨escAll k.data ++ '"' :: ':' :: (renderChars v ++ ',' :: renderObj (p :: ps)),
                by simp [renderObj, renderStr]⟩
          have hLen : (renderObj ((k, v) :: kvs)).length + 1 < f := by
            have h2 : (renderChars (Json.obj ((k, v) :: kvs))).length =
                (renderObj ((k, v) :: kvs)).length + 2 := by
              simp [renderChars]
            omega
          have hO := ihO (k, v) kvs rest hLen
          rw [ht2, List.cons_append] at hO ⊢
          simp [skipWs_cons '"' (t2 ++ rbrace :: rest) (by decide),
            show ('"' : Char) ≠ rbrace by decide, hO]
    · intro x xs rest hlen
      cases xs with
      | nil =>
        have hb : (renderChars x).length < f := by
          have h2 : (renderArr [x]).length = (renderChars x).length := by simp [renderArr]
          omega
        rw [parseArrItems_succ,
          show renderArr [x] ++ ']' :: rest = renderChars x ++ ']' :: rest by simp [renderArr],
          ihV x (']' :: rest) hb rfl]
        simp [skipWs_cons ']' rest (by decide)]
      | cons y ys =>
        have hx := renderChars_length_pos x
        have hL : (renderArr (x :: y :: ys)).length =
            (renderChars x).length + 1 + (renderArr (y :: ys)).length := by
          simp only [renderArr, List.length_append, List.length_cons]
          omega
        rw [parseArrItems_succ,
          show renderArr (x :: y :: ys) ++ ']' :: rest =
            renderChars x ++ (',' :: (renderArr (y :: ys) ++ ']' :: rest)) by simp [renderArr],
          ihV x (',' :: (renderArr (y :: ys) ++ ']' :: rest)) (by omega) rfl]
        have hA := ihA y ys rest (by omega)
        simp [skipWs_cons ',' (renderArr (y :: ys) ++ ']' :: rest) (by decide), hA]
    · intro kv kvs rest hlen
      obtain ⟨k, v⟩ := kv
      cases kvs with
      | nil =>
        rw [show renderObj [(k, v)] ++ rbrace :: rest =
            '"' :: (escAll k.data ++ '"' :: (':' :: (renderChars v ++ rbrace :: rest))) by
          simp [renderObj, renderStr]]
        rw [parseObjItems_step]
        have hv : (renderChars v).length < f := by
          have h2 : (renderObj [(k, v)]).length =
              (renderStr k).length + 1 + (renderChars v).length := by
            simp only [renderObj, List.length_append, List.length_cons]
            omega
          have h3 : 1 ≤ (renderStr k).length := by simp [renderStr]
          omega
        rw [ihV v (rbrace :: rest) hv rfl]
        simp [skipWs_cons rbrace rest (by decide), show rbrace ≠ ',' by decide, mk_data]
      | cons p ps =>
        rw [show renderObj ((k, v) :: p :: ps) ++ rbrace :: rest =
            '"' :: (escAll k.data ++ '"' ::
              (':' :: (renderChars v ++ ',' :: (renderObj (p :: ps) ++ rbrace :: rest)))) by
          simp [renderObj, renderStr]]
        rw [parseObjItems_step]
        have hkpos : 1 ≤ (renderStr k).length := by simp [renderStr]
        have hvpos := renderChars_length_pos v
        have hL : (renderObj ((k, v) :: p :: ps)).length =
            (renderStr k).length + 1 + (renderChars v).length + 1 +
              (renderObj (p :: ps)).length := by
          simp only [renderObj, List.length_append, List.length_cons]
          omega
        rw [ihV v (',' :: (renderObj (p :: ps) ++ rbrace :: rest)) (by omega) rfl]
        have hO := ihO p ps rest (by omega)
        simp [skipWs_cons ',' (renderObj (p :: ps) ++ rbrace :: rest) (by decide), hO, mk_data]

theorem parseJson_renderJson (v : Json) : parseJson (renderJson v) = some v := by
  have h := (parse_render_aux ((renderChars v).length + 1)).1 v [] (by omega) rfl
  rw [List.append_nil] at h
  rw [parseJson, renderJson]
  rw [show (String.mk (renderChars v)).data = renderChars v from rfl]
  rw [h]
  rfl


theorem splitOnChar_no_sep (sep : Char) (cs : List Char) (h : ¬ sep ∈ cs) :
    splitOnChar sep cs = [cs] := by
  induction cs with
  | nil => rfl
  | cons c cs ih =>
    have hc : ¬ c = sep := fun e => h (by rw [← e]; exact List.mem_cons_self c cs)
    have ih2 := ih (fun hm => h (List.mem_cons_of_mem c hm))
    simp [splitOnChar, hc, ih2]

theorem ne_empty_data (name : String) (h : name ≠ "") : name.data ≠ [] := by
  intro h0
  apply h
  rw [← mk_data name, h0]

theorem segsOfChars_hello (name : String) (h : ¬ '/' ∈ name.data) :
    segsOfChars ("/hello/" ++ name) = [[], ['h','e','l','l','o'], name.data] := by
  have hs := splitOnChar_no_sep '/' name.data h
  rw [segsOfChars, String.data_append]
  rw [show ("/hello/" : String).data = ['/','h','e','l','l','o','/'] from rfl]
  simp [splitOnChar, hs]

theorem matchingRoutes_hello (name : String) (hne : name.data ≠ []) (h : ¬ '/' ∈ name.data) :
    matchingRoutes ("/hello/" ++ name) =
      [(⟨defaultMethods, "/hello/\x7bname\x7d", hello_name⟩, [("name", name)])] := by
  rw [matchingRoutes, app_routes, segsOfChars_hello name h]
  simp only [List.filterMap_cons, List.filterMap_nil]
  rw [show segsOfChars "/" = [[], []] from rfl]
  rw [show segsOfChars "/hello/\x7bname\x7d" =
    [[], ['h','e','l','l','o'], [lbrace,'n','a','m','e',rbrace]] from rfl]
  rw [show segsOfChars "/users" = [[], ['u','s','e','r','s']] from rfl]
  simp [matchSegs, placeholderName, hne, mk_data,
    show ¬('h' = lbrace ∧ 'o' = rbrace) by decide,
    show ¬('u' = lbrace ∧ 's' = rbrace) by decide]

theorem handle_hello (name : String) (hne : name.data ≠ []) (h : ¬ '/' ∈ name.data)
    (headers : List (String × String)) (body : String) :
    handle ⟨"GET", "/hello/" ++ name, headers, body⟩ =
      { statusCode := 200, headers := [("Content-Type", "application/json")],
        body := renderJson (Json.obj [("hello", Json.str name)]) } := by
  simp [handle, matchingRoutes_hello name hne h, hello_name, defaultMethods, renderJson]

theorem handle_no_path (req : Request) (hp : pathIsRegistered req.path = false) :
    handle req =
      { statusCode := 404, headers := [("Content-Type", "application/json")], body := "" } := by
  have hnil : matchingRoutes req.path = [] := by
    have he : (matchingRoutes req.path).isEmpty = true := by
      simpa [pathIsRegistered] using hp
    exact List.isEmpty_iff.mp (by simp [he])
  rw [handle, hnil]
  rfl

theorem handle_no_method (req : Request) (hp : pathIsRegistered req.path = true)
    (hm : methodIsRegistered req.method req.path = false) :
    handle req =
      { statusCode := 405, headers := [("Content-Type", "application/json")], body := "" } := by
  have hfind : (matchingRoutes req.path).find?
      (fun rb => rb.1.methods.contains req.method) = none := by
    rw [List.find?_eq_none]
    intro x hx
    have h2 := List.any_eq_false.mp hm x hx
    simpa using h2
  have he : (matchingRoutes req.path).isEmpty = false := by
    simpa [pathIsRegistered] using hp
  rw [handle, hfind]
  simp [he]

theorem handle_users_ok (headers : List (String × String)) (body : String) (u : Json)
    (hj : json_body ⟨"POST", "/users", headers, body⟩ = .ok u) :
    handle ⟨"POST", "/users", headers, body⟩ =
      { statusCode := 200, headers := [("Content-Type", "application/json")],
        body := renderJson (Json.obj [("user", u)]) } := by
  rw [handle]
  rw [show matchingRoutes "/users" = [(⟨["POST"], "/users", create_user⟩, [])] from rfl]
  simp [create_user, hj]

theorem handle_users_err (headers : List (String × String)) (body : String) (e : Nat)
    (hj : json_body ⟨"POST", "/users", headers, body⟩ = .error e) :
    handle ⟨"POST", "/users", headers, body⟩ =
      { statusCode := e, headers := [("Content-Type", "application/json")], body := "" } := by
  rw [handle]
  rw [show matchingRoutes "/users" = [(⟨["POST"], "/users", create_user⟩, [])] from rfl]
  simp [create_user, hj]

/-- Claim C1: for every request with method GET and path `/`, regardless of
headers and body, the dispatcher returns status 200 with a body that
JSON-decodes to the mapping containing exactly `hello ↦ world`. -/
theorem index_route_returns_200_hello_world :
    ∀ (headers : List (String × String)) (body : String),
      (handle ⟨"GET", "/", headers, body⟩).statusCode = 200 ∧
      parseJson (handle ⟨"GET", "/", headers, body⟩).body =
        some (Json.obj [("hello", Json.str "world")]) := by
  intro headers body
  exact ⟨rfl, rfl⟩

/-- Claim C2: for every non-empty `name` without a path separator, GET on
`/hello/` followed by `name` returns 200 with a body that JSON-decodes to
the mapping `hello ↦ name`, with `name` bound from the placeholder
segment. -/
theorem hello_route_echoes_name :
    ∀ (name : String) (headers : List (String × String)) (body : String),
      name ≠ "" → ¬ '/' ∈ name.data →
      (handle ⟨"GET", "/hello/" ++ name, headers, body⟩).statusCode = 200 ∧
      parseJson (handle ⟨"GET", "/hello/" ++ name, headers, body⟩).body =
        some (Json.obj [("hello", Json.str name)]) := by
  intro name headers body h1 h2
  rw [handle_hello name (ne_empty_data name h1) h2 headers body]
  exact ⟨rfl, parseJson_renderJson _⟩

/-- Witness for C2 at `name = "alice"`. -/
theorem hello_route_echoes_name_witness :
    ("alice" : String) ≠ "" ∧ ¬ '/' ∈ ("alice" : String).data ∧
    (handle ⟨"GET", "/hello/" ++ "alice", [], ""⟩).statusCode = 200 ∧
    parseJson (handle ⟨"GET", "/hello/" ++ "alice", [], ""⟩).body =
      some (Json.obj [("hello", Json.str "alice")]) :=
  ⟨by decide, by decide,
    (hello_route_echoes_name "alice" [] "" (by decide) (by decide)).1,
    (hello_route_echoes_name "alice" [] "" (by decide) (by decide)).2⟩

/-- Claim C3: for every JSON value `B`, a POST to `/users` with a JSON
content type and a body that JSON-decodes to `B` returns 200 with a body
that JSON-decodes to the mapping `user ↦ B` — an exact, order- and
type-preserving echo. -/
theorem users_route_echoes_json_body :
    ∀ (B : Json) (headers : List (String × String)) (body : String),
      parseJson body = some B → hasJsonContentType headers = true →
      (handle ⟨"POST", "/users", headers, body⟩).statusCode = 200 ∧
      parseJson (handle ⟨"POST", "/users", headers, body⟩).body =
        some (Json.obj [("user", B)]) := by
  intro B headers body hb hct
  have hj : json_body ⟨"POST", "/users", headers, body⟩ = .ok B := by
    simp [json_body, hct, hb]
  rw [handle_users_ok headers body B hj]
  exact ⟨rfl, parseJson_renderJson _⟩

/-- Witness for C3 at `B = ["alice","bob"]`. -/
theorem users_route_echoes_json_body_witness :
    parseJson "[\"alice\",\"bob\"]" = some (Json.arr [Json.str "alice", Json.str "bob"]) ∧
    hasJsonContentType [("Content-Type", "application/json")] = true ∧
    (handle ⟨"POST", "/users", [("Content-Type", "application/json")],
      "[\"alice\",\"bob\"]"⟩).statusCode = 200 ∧
    parseJson (handle ⟨"POST", "/users", [("Content-Type", "application/json")],
      "[\"alice\",\"bob\"]"⟩).body =
      some (Json.obj [("user", Json.arr [Json.str "alice", Json.str "bob"])]) :=
  ⟨rfl, rfl,
    (users_route_echoes_json_body (Json.arr [Json.str "alice", Json.str "bob"])
      [("Content-Type", "application/json")] "[\"alice\",\"bob\"]" rfl rfl).1,
    (users_route_echoes_json_body (Json.arr [Json.str "alice", Json.str "bob"])
      [("Content-Type", "application/json")] "[\"alice\",\"bob\"]" rfl rfl).2⟩

/-- Claim C4: a request whose path matches a registered pattern but whose
method is not registered for it returns 405, and that outcome differs from
the 404 outcome of a request whose path matches no pattern. -/
theorem method_mismatch_returns_405 :
    ∀ req : Request, pathIsRegistered req.path = true →
      methodIsRegistered req.method req.path = false →
      (handle req).statusCode = 405 ∧
      ∀ req2 : Request, pathIsRegistered req2.path = false →
        (handle req2).statusCode ≠ (handle req).statusCode := by
  intro req h1 h2
  rw [handle_no_method req h1 h2]
  refine ⟨rfl, ?_⟩
  intro req2 h3
  rw [handle_no_path req2 h3]
  decide

/-- Witness for C4 at POST `/` against GET `/fake/path`. -/
theorem method_mismatch_returns_405_witness :
    pathIsRegistered ("/" : String) = true ∧
    methodIsRegistered "POST" "/" = false ∧
    (handle ⟨"POST", "/", [], ""⟩).statusCode = 405 ∧
    pathIsRegistered ("/fake/path" : String) = false ∧
    (handle ⟨"GET", "/fake/path", [], ""⟩).statusCode ≠
      (handle ⟨"POST", "/", [], ""⟩).statusCode :=
  ⟨rfl, rfl, (method_mismatch_returns_405 ⟨"POST", "/", [], ""⟩ rfl rfl).1, rfl,
    (method_mismatch_returns_405 ⟨"POST", "/", [], ""⟩ rfl rfl).2
      ⟨"GET", "/fake/path", [], ""⟩ rfl⟩

/-- Claim C5: a request whose path matches no registered pattern gets a
404 response, in particular a non-200 status. -/
theorem unregistered_path_returns_404 :
    ∀ req : Request, pathIsRegistered req.path = false →
      (handle req).statusCode = 404 ∧ (handle req).statusCode ≠ 200 := by
  intro req h
  rw [handle_no_path req h]
  exact ⟨rfl, by decide⟩

/-- Witness for C5 at GET `/fake/path`. -/
theorem unregistered_path_returns_404_witness :
    pathIsRegistered ("/fake/path" : String) = false ∧
    (handle ⟨"GET", "/fake/path", [], ""⟩).statusCode = 404 ∧
    (handle ⟨"GET", "/fake/path", [], ""⟩).statusCode ≠ 200 :=
  ⟨rfl, (unregistered_path_returns_404 ⟨"GET", "/fake/path", [], ""⟩ rfl).1,
    (unregistered_path_returns_404 ⟨"GET", "/fake/path", [], ""⟩ rfl).2⟩

/-- Claim C6: the dispatcher is deterministic — two requests with the same
method, path, headers and body get responses with identical status code,
headers and body string. -/
theorem handle_deterministic :
    ∀ r1 r2 : Request, r1.method = r2.method → r1.path = r2.path →
      r1.headers = r2.headers → r1.body = r2.body →
      (handle r1).statusCode = (handle r2).statusCode ∧
      (handle r1).headers = (handle r2).headers ∧
      (handle r1).body = (handle r2).body := by
  intro r1 r2 h1 h2 h3 h4
  obtain ⟨m1, p1, hs1, b1⟩ := r1
  obtain ⟨m2, p2, hs2, b2⟩ := r2
  cases h1
  cases h2
  cases h3
  cases h4
  exact ⟨rfl, rfl, rfl⟩

/-- Witness for C6 at two identical GET `/` requests. -/
theorem handle_deterministic_witness :
    (handle ⟨"GET", "/", [], ""⟩).statusCode = (handle ⟨"GET", "/", [], ""⟩).statusCode ∧
    (handle ⟨"GET", "/", [], ""⟩).headers = (handle ⟨"GET", "/", [], ""⟩).headers ∧
    (handle ⟨"GET", "/", [], ""⟩).body = (handle ⟨"GET", "/", [], ""⟩).body :=
  handle_deterministic ⟨"GET", "/", [], ""⟩ ⟨"GET", "/", [], ""⟩ rfl rfl rfl rfl

/-- Claim C7: each `handle` call is a pure, independent computation — in a
batch, the response at a request's position is exactly `handle` of that
request, independent of whatever requests ran before or after it. -/
theorem handle_independent :
    ∀ (pre post pre2 post2 : List Request) (req : Request),
      (processAll (pre ++ req :: post))[pre.length]? = some (handle req) ∧
      (processAll (pre ++ req :: post))[pre.length]? =
        (processAll (pre2 ++ req :: post2))[pre2.length]? := by
  have key : ∀ (pre post : List Request) (req : Request),
      (processAll (pre ++ req :: post))[pre.length]? = some (handle req) := by
    intro pre post req
    rw [processAll, List.map_append, List.getElem?_append_right (by simp)]
    simp
  intro pre post pre2 post2 req
  exact ⟨key pre post req, (key pre post req).trans (key pre2 post2 req).symm⟩

/-- Claim C8: a POST to `/users` with a JSON content type and a malformed
JSON body yields a status-coded (400, non-200) error response for that
request alone; processing it leaves every later request's outcome exactly
what it would have been anyway. -/
theorem malformed_json_body_is_request_scoped_400 :
    ∀ (headers : List (String × String)) (body : String),
      hasJsonContentType headers = true → parseJson body = none →
      (handle ⟨"POST", "/users", headers, body⟩).statusCode = 400 ∧
      (handle ⟨"POST", "/users", headers, body⟩).statusCode ≠ 200 ∧
      ∀ rest : List Request,
        processAll (⟨"POST", "/users", headers, body⟩ :: rest) =
          handle ⟨"POST", "/users", headers, body⟩ :: processAll rest := by
  intro headers body hct hb
  have hj : json_body ⟨"POST", "/users", headers, body⟩ = .error 400 := by
    simp [json_body, hct, hb]
  have hh := handle_users_err headers body 400 hj
  exact ⟨by rw [hh], by rw [hh]; decide, fun rest => rfl⟩

/-- Witness for C8 at body `"["`. -/
theorem malformed_json_body_is_request_scoped_400_witness :
    hasJsonContentType [("Content-Type", "application/json")] = true ∧
    parseJson "[" = none ∧
    (handle ⟨"POST", "/users", [("Content-Type", "application/json")], "["⟩).statusCode = 400 :=
  ⟨rfl, rfl,
    (malformed_json_body_is_request_scoped_400
      [("Content-Type", "application/json")] "[" rfl rfl).1⟩

/-- Claim C9: each route accepts only its declared methods (GET being the
default when none are declared): any non-GET method on `/hello/` plus a
valid name returns 405, and any non-POST method on `/users` returns 405. -/
theorem non_declared_methods_return_405 :
    ∀ (m name : String) (headers : List (String × String)) (body : String),
      name ≠ "" → ¬ '/' ∈ name.data →
      (m ≠ "GET" → (handle ⟨m, "/hello/" ++ name, headers, body⟩).statusCode = 405) ∧
      (m ≠ "POST" → (handle ⟨m, "/users", headers, body⟩).statusCode = 405) := by
  intro m name headers body h1 h2
  constructor
  · intro hm
    have hp : pathIsRegistered ("/hello/" ++ name) = true := by
      simp [pathIsRegistered, matchingRoutes_hello name (ne_empty_data name h1) h2]
    have hmr : methodIsRegistered m ("/hello/" ++ name) = false := by
      rw [methodIsRegistered, matchingRoutes_hello name (ne_empty_data name h1) h2]
      simp [defaultMethods]
      exact hm
    rw [handle_no_method ⟨m, "/hello/" ++ name, headers, body⟩ hp hmr]
  · intro hm
    have hp : pathIsRegistered ("/users" : String) = true := rfl
    have hmr : methodIsRegistered m "/users" = false := by
      rw [methodIsRegistered]
      rw [show matchingRoutes "/users" = [(⟨["POST"], "/users", create_user⟩, [])] from rfl]
      simp
      exact hm
    rw [handle_no_method ⟨m, "/users", headers, body⟩ hp hmr]

/-- Witness for C9 at method PUT and `name = "alice"`. -/
theorem non_declared_methods_return_405_witness :
    ("alice" : String) ≠ "" ∧ ¬ '/' ∈ ("alice" : String).data ∧
    ("PUT" : String) ≠ "GET" ∧ ("PUT" : String) ≠ "POST" ∧
    (handle ⟨"PUT", "/hello/" ++ "alice", [], ""⟩).statusCode = 405 ∧
    (handle ⟨"PUT", "/users", [], ""⟩).statusCode = 405 :=
  ⟨by decide, by decide, by decide, by decide,
    (non_declared_methods_return_405 "PUT" "alice" [] "" (by decide) (by decide)).1 (by decide),
    (non_declared_methods_return_405 "PUT" "alice" [] "" (by decide) (by decide)).2 (by decide)⟩

/-- Claim C10: a POST to `/users` whose content type does not indicate
JSON sees a `null` parsed body, so the dispatcher answers 200 with a body
that JSON-decodes to the mapping `user ↦ null` rather than an error. -/
theorem users_route_null_body_without_json_content_type :
    ∀ (headers : List (String × String)) (body : String),
      hasJsonContentType headers = false →
      (handle ⟨"POST", "/users", headers, body⟩).statusCode = 200 ∧
      parseJson (handle ⟨"POST", "/users", headers, body⟩).body =
        some (Json.obj [("user", Json.null)]) := by
  intro headers body hct
  have hj : json_body ⟨"POST", "/users", headers, body⟩ = .ok Json.null := by
    simp [json_body, hct]
  rw [handle_users_ok headers body Json.null hj]
  exact ⟨rfl, parseJson_renderJson _⟩

/-- Witness for C10 at empty headers and a non-JSON body. -/
theorem users_route_null_body_without_json_content_type_witness :
    hasJsonContentType ([] : List (String × String)) = false ∧
    (handle ⟨"POST", "/users", [], "plain text"⟩).statusCode = 200 ∧
    parseJson (handle ⟨"POST", "/users", [], "plain text"⟩).body =
      some (Json.obj [("user", Json.null)]) :=
  ⟨rfl, (users_route_null_body_without_json_content_type [] "plain text" rfl).1,
    (users_route_null_body_without_json_content_type [] "plain text" rfl).2⟩

end ChaliceUnitTest
